import Mathlib

/-!
Verification development for the GraphML/CSV Dash visualization core
(Alt-NoRock/Django-Connection-Sample).

The Python sources embedded here are:
* `src/utils/graphml_csv_loader.py` — `GraphMLCSVConfigLoader`
  (attribute resolution, element projection, directed-edge projection,
  table filtering, grouped layout) and `GraphStyleManager`
  (highlights, directed overlay);
* `src/utils/graph_loader.py` — the older `GraphConfigLoader`;
* `src/dash_graphml_csv.py` — the `update_styles` callback;
* `src/dash_advanced_reset.py` — `_merge_stylesheets`,
  `_handle_node_selection`, `_handle_table_style_selection`.

Python dictionaries with string keys are modelled as association lists
(`Dict`); attribute values as a small `PyValue` type carrying Python's
truthiness and `str` coercion for the value shapes the loaders handle.
-/

namespace DjangoConnSample

/-- Attribute values as they appear in node/edge data and table rows. -/
inductive PyValue where
  | str (s : String)
  | int (n : Int)
  | bool (b : Bool)
  | none
deriving DecidableEq, Repr

/-- Python truthiness (`if value:`) for `PyValue`. -/
def pyTruthy : PyValue → Bool
  | .str s => s ≠ ""
  | .int n => n ≠ 0
  | .bool b => b
  | .none => false

/-- Python `str(value)` for `PyValue`. -/
def pyStr : PyValue → String
  | .str s => s
  | .int n => toString n
  | .bool b => if b then "True" else "False"
  | .none => "None"

/-- Python `str.lower()`, modelled per character (every string this
code lower-cases is ASCII). -/
def pyLowerStr (s : String) : String :=
  String.mk (s.data.map Char.toLower)

/-- A Python dict with string keys, as an association list (keys unique
in an actual dict; lookup takes the first hit). -/
abbrev Dict := List (String × PyValue)

/-- `d[k]` as an option (`k in d` ↔ `isSome`). -/
def dictFind (d : Dict) (k : String) : Option PyValue :=
  (d.find? (fun p => p.1 == k)).map (fun p => p.2)

/-- Python `k in d`. -/
def hasKey (d : Dict) (k : String) : Bool :=
  (dictFind d k).isSome

/-- Python `d.get(k, dflt)`. -/
def dictGet (d : Dict) (k : String) (dflt : PyValue) : PyValue :=
  (dictFind d k).getD dflt

/-- Python `candidate in data and data[candidate]` (present with truthy
value), the test used by every attribute-resolution loop. -/
def presentTruthy (d : Dict) (c : String) : Bool :=
  match dictFind d c with
  | some v => pyTruthy v
  | Option.none => false

/-- The shared shape of the three resolution loops in
`graphml_csv_loader.py`: walk the candidates in order and return the
first attribute present with a truthy value. -/
def resolveFirst (d : Dict) : List String → Option PyValue
  | [] => Option.none
  | c :: rest =>
    match dictFind d c with
    | some v => if pyTruthy v then some v else resolveFirst d rest
    | Option.none => resolveFirst d rest

/-- `GraphMLCSVConfigLoader._get_node_label` (lines 271-289). -/
def get_node_label (node_data : Dict) (node_id : String) : String :=
  match resolveFirst node_data ["label", "name", "title", "id"] with
  | some v => pyStr v
  | Option.none => node_id

/-- `GraphMLCSVConfigLoader._get_node_type` (lines 291-308). -/
def get_node_type (node_data : Dict) : String :=
  match resolveFirst node_data ["type", "category", "kind", "class"] with
  | some v => pyStr v
  | Option.none => "default"

/-- `GraphMLCSVConfigLoader._get_edge_label` (lines 363-382). -/
def get_edge_label (edge_data : Dict) (source target : String) : String :=
  match resolveFirst edge_data ["label", "name", "title", "relation"] with
  | some v => pyStr v
  | Option.none => source ++ "->" ++ target

/-! ## Graph model

`nx.read_graphml` yields string node ids; edges carry their own
attribute dict (`self.graph[u][v]`). -/

structure GraphNode where
  id : String
  attrs : Dict
deriving DecidableEq, Repr

structure GraphEdge where
  source : String
  target : String
  attrs : Dict
deriving DecidableEq, Repr

structure Graph where
  nodes : List GraphNode
  edges : List GraphEdge
deriving DecidableEq, Repr

/-! ## Element projection -/

structure NodeElement where
  id : String
  label : String
  nodeType : String
  classes : String
  extra : Dict
deriving DecidableEq, Repr

structure EdgeElement where
  source : String
  target : String
  label : String
  directed : Bool
  classes : String
  extra : Dict
deriving DecidableEq, Repr

inductive CyElement where
  | nodeEl (n : NodeElement)
  | edgeEl (e : EdgeElement)
deriving DecidableEq, Repr

/-- `_add_additional_node_attributes`: copy the whitelist attributes
present in the node data (lines 310-327). -/
def additional_node_attrs (d : Dict) : Dict :=
  ["weight", "size", "color", "description"].filterMap
    (fun a => (dictFind d a).map (fun v => (a, v)))

/-- `_add_additional_edge_attributes` (lines 384-401). -/
def additional_edge_attrs (d : Dict) : Dict :=
  ["weight", "bandwidth", "protocol", "description"].filterMap
    (fun a => (dictFind d a).map (fun v => (a, v)))

/-- One node element as built by `_create_node_elements` (lines 237-269). -/
def node_element (n : GraphNode) : NodeElement :=
  ⟨n.id, get_node_label n.attrs n.id, get_node_type n.attrs,
   "type-" ++ pyLowerStr (get_node_type n.attrs),
   additional_node_attrs n.attrs⟩

/-- One edge element of the initial (all-undirected) projection,
`_create_edge_elements` (lines 329-361). -/
def edge_element_undirected (e : GraphEdge) : EdgeElement :=
  ⟨e.source, e.target, get_edge_label e.attrs e.source e.target,
   false, "undirected", additional_edge_attrs e.attrs⟩

/-- `get_cytoscape_elements` (lines 218-235): nodes then edges, all
edges undirected. -/
def get_cytoscape_elements (g : Graph) : List CyElement :=
  g.nodes.map (fun n => CyElement.nodeEl (node_element n))
    ++ g.edges.map (fun e => CyElement.edgeEl (edge_element_undirected e))

/-- `_create_directed_edge_elements` (lines 432-473): mark exactly the
edge whose `(source, target)` string-equals the requested pair. -/
def create_directed_edge_elements (g : Graph) (target_source target_target : String) :
    List EdgeElement :=
  g.edges.map (fun e =>
    let is_directed : Bool := e.source == target_source && e.target == target_target
    ⟨e.source, e.target, get_edge_label e.attrs e.source e.target,
     is_directed, if is_directed then "directed" else "undirected",
     additional_edge_attrs e.attrs⟩)

/-- `get_directed_cytoscape_elements` (lines 403-430). -/
def get_directed_cytoscape_elements (g : Graph) (source_node target_node : String) :
    List CyElement :=
  g.nodes.map (fun n => CyElement.nodeEl (node_element n))
    ++ (create_directed_edge_elements g source_node target_node).map CyElement.edgeEl

/-- A table row: a flat attribute dict. -/
abbrev Row := Dict

/-- The join columns `_extract_connection_info` resolves: the
configured `filter_columns`, else the candidates present in the row. -/
def resolvedConnCols (cfgFilterCols : List String) (selected_row : Row) :
    List String :=
  if cfgFilterCols = [] then
    ["source", "target", "from", "to", "node1", "node2"].filter
      (fun c => hasKey selected_row c)
  else cfgFilterCols

/-- `_extract_connection_info` (lines 503-528): resolve the two join
columns (configured, else probed from the row) and return the pair of
string-coerced values when both are non-empty. -/
def extract_connection_info (cfgFilterCols : List String) (selected_row : Row) :
    Option (String × String) :=
  match resolvedConnCols cfgFilterCols selected_row with
  | c0 :: c1 :: _ =>
    let source_node := pyStr (dictGet selected_row c0 (.str ""))
    let target_node := pyStr (dictGet selected_row c1 (.str ""))
    if source_node ≠ "" ∧ target_node ≠ "" then some (source_node, target_node)
    else Option.none
  | _ => Option.none

/-- `get_directed_cytoscape_elements_by_table_row` (lines 475-501). -/
def get_directed_cytoscape_elements_by_table_row
    (g : Graph) (cfgFilterCols : List String) (selected_row : Row) : List CyElement :=
  if selected_row = [] then get_cytoscape_elements g
  else
    match extract_connection_info cfgFilterCols selected_row with
    | some (s, t) => get_directed_cytoscape_elements g s t
    | Option.none => get_cytoscape_elements g

/-! ## Style rules and the style manager

A Cytoscape style rule: `{'selector': ..., 'style': {...}}`.  Python
rules lacking a `'selector'` key behave, for everything observed here,
like rules whose selector is the empty string. -/

structure StyleRule where
  selector : String
  style : Dict
deriving DecidableEq, Repr

/-- Selector built by `add_node_highlight` / the per-node rules of
`graph_loader.py`: `node[id = "X"]`. -/
def nodeIdSelector (node_id : String) : String :=
  "node[id = \"" ++ node_id ++ "\"]"

/-- Selector of the per-type rules of `graphml_csv_loader.py`:
`node[Type = "T"]`. -/
def nodeTypeSelector (node_type : String) : String :=
  "node[Type = \"" ++ node_type ++ "\"]"

/-- Selector of the edge rule built by `add_edge_highlight`. -/
def edgeHighlightSelector (source target : String) : String :=
  "edge[source = \"" ++ source ++ "\"][target = \"" ++ target ++ "\"]"

/-- `GraphStyleManager.get_base_stylesheet` (graphml_csv_loader.py
lines 945-947): a copy of the stored base stylesheet. -/
def get_base_stylesheet (base : List StyleRule) : List StyleRule :=
  base

/-- `GraphStyleManager.add_node_highlight` (lines 949-955); Python
defaults are `color='red'`, `width=4`. -/
def add_node_highlight (base : List StyleRule) (node_id : String)
    (color : String) (width : Int) : List StyleRule :=
  base ++ [⟨nodeIdSelector node_id,
           [("border-width", .int width), ("border-color", .str color)]⟩]

/-- `GraphStyleManager.add_edge_highlight` (lines 957-965); Python
default is `color='orange'`. -/
def add_edge_highlight (base : List StyleRule) (source target : String)
    (color : String) : List StyleRule :=
  base ++
    [⟨nodeIdSelector source,
      [("border-width", .int 4), ("border-color", .str color)]⟩,
     ⟨nodeIdSelector target,
      [("border-width", .int 4), ("border-color", .str color)]⟩,
     ⟨edgeHighlightSelector source target,
      [("line-color", .str color), ("target-arrow-color", .str color)]⟩]

/-- `GraphStyleManager.get_directed_stylesheet` (lines 967-993). -/
def get_directed_stylesheet (base : List StyleRule) : List StyleRule :=
  base ++
    [⟨"edge.undirected",
      [("target-arrow-shape", .str "none"), ("source-arrow-shape", .str "none"),
       ("line-style", .str "solid"), ("line-color", .str "#666"),
       ("width", .int 2)]⟩,
     ⟨"edge.directed",
      [("target-arrow-shape", .str "triangle"),
       ("target-arrow-color", .str "#e74c3c"),
       ("line-color", .str "#e74c3c"), ("width", .int 3),
       ("line-style", .str "solid")]⟩]

/-! ### The dynamically generated base stylesheet
(`GraphMLCSVConfigLoader.get_cytoscape_stylesheet`, lines 549-680). -/

/-- Configuration slice the stylesheet generation reads:
`layout.default_node_style` and `node_type_styles`. -/
structure StyleConfig where
  default_node_style : Dict
  node_type_styles : List (String × Dict)
deriving DecidableEq, Repr

/-- `_add_default_node_style` (lines 572-596). -/
def default_node_rule (cfg : StyleConfig) : StyleRule :=
  ⟨"node",
   [("label", .str "data(label)"),
    ("background-color", dictGet cfg.default_node_style "background_color" (.str "#666")),
    ("shape", dictGet cfg.default_node_style "shape" (.str "ellipse")),
    ("width", dictGet cfg.default_node_style "width" (.int 60)),
    ("height", dictGet cfg.default_node_style "height" (.int 60)),
    ("text-valign", .str "center"), ("text-halign", .str "center"),
    ("font-size", .str "10px"), ("color", .str "#333")]⟩

/-- `_create_node_type_style` (lines 614-656); the optional icon block
only extends the declarations, never the selector. -/
def node_type_rule (node_type : String) (style_config : Dict) : StyleRule :=
  ⟨nodeTypeSelector node_type,
   [("label", .str "data(label)"),
    ("background-color", dictGet style_config "background_color" (.str "#e0e0e0")),
    ("shape", dictGet style_config "shape" (.str "ellipse")),
    ("width", dictGet style_config "width" (.int 60)),
    ("height", dictGet style_config "height" (.int 60)),
    ("text-valign", .str "center"), ("text-halign", .str "center"),
    ("font-size", .str "10px"), ("color", .str "#333")]⟩

/-- `_add_edge_styles` (lines 658-680). -/
def default_edge_rule : StyleRule :=
  ⟨"edge",
   [("curve-style", .str "bezier"), ("width", .int 2),
    ("line-color", .str "#999"), ("target-arrow-color", .str "#999"),
    ("label", .str "data(label)"), ("font-size", .str "8px"),
    ("text-rotation", .str "autorotate")]⟩

/-- `get_node_types` (lines 530-547): `sorted(list(set(...)))` of the
resolved node types. -/
def get_node_types (g : Graph) : List String :=
  ((g.nodes.map (fun n => get_node_type n.attrs)).dedup).insertionSort (fun a b => a ≤ b)

/-- `get_cytoscape_stylesheet` (lines 549-570): default node rule, one
rule per styled node type present, default edge rule. -/
def get_cytoscape_stylesheet_csv (cfg : StyleConfig) (g : Graph) : List StyleRule :=
  default_node_rule cfg ::
    ((get_node_types g).filterMap (fun t =>
        (cfg.node_type_styles.find? (fun p => p.1 == t)).map
          (fun p => node_type_rule t p.2)))
    ++ [default_edge_rule]

/-! ## Stylesheet merging
(`AdvancedGraphMLCSVDashApp._merge_stylesheets`, dash_advanced_reset.py
lines 104-133). -/

/-- The loop over `additional_styles`: append a rule when its selector
is non-empty and not yet among the accumulated selectors. -/
def mergeExtra (existing : List String) : List StyleRule → List StyleRule
  | [] => []
  | s :: rest =>
    if s.selector ≠ "" ∧ s.selector ∉ existing then
      s :: mergeExtra (existing ++ [s.selector]) rest
    else
      mergeExtra existing rest

/-- `_merge_stylesheets`: an empty base short-circuits to a copy of the
additional styles; otherwise the base is kept and deduplicated extras
are appended. -/
def merge_stylesheets (base_styles additional_styles : List StyleRule) :
    List StyleRule :=
  if base_styles = [] then additional_styles
  else base_styles ++ mergeExtra (base_styles.map StyleRule.selector) additional_styles

/-! ## Selection state machine -/

/-- The `last-selected` store `{'type': ..., 'value': ...}` as a tagged
variant: `{'type': None, 'value': None}`, `{'type': 'node', 'value': id}`,
`{'type': 'table', 'value': index}`. -/
inductive Selection where
  | none
  | node (id : String)
  | table (idx : Nat)
deriving DecidableEq, Repr

/-- `AdvancedGraphMLCSVDashApp._handle_node_selection`
(dash_advanced_reset.py lines 135-169).  A falsy (empty) clicked id and
a repeated click both clear the selection and return the resting
(directed-overlay) stylesheet; `add_node_highlight` never raises, so
the `except` branch is dead. -/
def handle_node_selection (base : List StyleRule) (clicked_node : String)
    (last_selected : Selection) : List StyleRule × Selection :=
  if clicked_node = "" then
    (get_directed_stylesheet base, Selection.none)
  else if last_selected = Selection.node clicked_node then
    (get_directed_stylesheet base, Selection.none)
  else
    (add_node_highlight base clicked_node "red" 4, Selection.node clicked_node)

/-- The inference of filter columns done inside the `update_styles`
callbacks (probe the row for the candidates that are present). -/
def inferFilterColumns (row : Row) (candidates : List String) : List String :=
  candidates.filter (fun c => hasKey row c)

/-- The `update_styles` callback of `dash_graphml_csv.py` (lines
90-130).  `Except.error` marks the places where the Python raises:
`table_data[selected_rows[0]]` out of bounds (IndexError) and
`selected_row[filter_columns[i]]` on a configured column missing from
the row (KeyError). -/
def update_styles (base : List StyleRule) (cfgFilterCols : List String)
    (tapNodeData : Option String) (selected_rows : List Nat)
    (last_selected : Selection) (table_data : List Row) :
    Except String (List StyleRule × Selection) :=
  match tapNodeData with
  | some clicked_node =>
    if last_selected = Selection.node clicked_node then
      Except.ok (get_base_stylesheet base, Selection.none)
    else
      Except.ok (add_node_highlight base clicked_node "red" 4,
                 Selection.node clicked_node)
  | Option.none =>
    match selected_rows, table_data with
    | i :: _, _ :: _ =>
      (match table_data.get? i with
       | Option.none => Except.error "IndexError"
       | some selected_row =>
         let filter_columns :=
           if cfgFilterCols = [] then
             inferFilterColumns selected_row ["source", "target", "from", "to"]
           else cfgFilterCols
         match filter_columns with
         | c0 :: c1 :: _ =>
           (match dictFind selected_row c0, dictFind selected_row c1 with
            | some v0, some v1 =>
              if last_selected = Selection.table i then
                Except.ok (get_base_stylesheet base, Selection.none)
              else
                Except.ok (add_edge_highlight base (pyStr v0) (pyStr v1) "orange",
                           Selection.table i)
            | _, _ => Except.error "KeyError")
         | _ => Except.ok (get_base_stylesheet base, Selection.none))
    | _, _ => Except.ok (get_base_stylesheet base, Selection.none)

/-! ## Table filtering
(`GraphMLCSVConfigLoader.filter_table_by_node`, lines 821-846). -/

/-- The columns the filter resolves: the configured `filter_columns`,
else the candidates present in the first row. -/
def resolved_filter_columns (cfgFilterCols : List String) (rows : List Row) :
    List String :=
  if cfgFilterCols = [] then
    match rows with
    | [] => []
    | first_row :: _ =>
      inferFilterColumns first_row
        ["source", "target", "from", "to", "sender", "receiver"]
  else cfgFilterCols

/-- The per-row test of the filter loop: some resolved column is present
and its string coercion equals the node id (`break` after the first hit,
so each row is kept at most once). -/
def rowMatchesNode (filter_columns : List String) (node_id : String) (row : Row) :
    Bool :=
  filter_columns.any (fun c =>
    match dictFind row c with
    | some v => pyStr v == node_id
    | Option.none => false)

/-- `filter_table_by_node` (lines 821-846). -/
def filter_table_by_node (cfgFilterCols : List String) (node_id : String)
    (original_data : List Row) : List Row :=
  match original_data with
  | [] => []
  | _ :: _ =>
    let filter_columns := resolved_filter_columns cfgFilterCols original_data
    if filter_columns = [] then original_data
    else
      let filtered_data := original_data.filter (rowMatchesNode filter_columns node_id)
      if filtered_data = [] then original_data else filtered_data

/-! ## Grouped layout
(`GraphMLCSVConfigLoader.get_grouped_layout_config`, lines 848-936).
Coordinates are modelled as exact rationals; Python's float arithmetic
on these small quotients agrees with ℚ whenever the quotients are
representable, and the claims are settled against the exact formulas. -/

/-- The type value the layout reads:
`node_data.get('type', node_data.get('category', 'default'))`. -/
def layoutTypeVal (n : GraphNode) : PyValue :=
  dictGet n.attrs "type" (dictGet n.attrs "category" (.str "default"))

/-- Python `value.lower()`: defined for strings, an `AttributeError`
otherwise. -/
def pyLower : PyValue → Except String String
  | .str s => Except.ok (pyLowerStr s)
  | _ => Except.error "AttributeError"

/-- The classification pass of `get_grouped_layout_config` (lines
859-870): one walk over the nodes appending each id to exactly one of
the four buckets. -/
def classifyNodes : List GraphNode →
    Except String (List String × List String × List String × List String)
  | [] => Except.ok ([], [], [], [])
  | n :: rest =>
    match pyLower (layoutTypeVal n) with
    | Except.error e => Except.error e
    | Except.ok t =>
      match classifyNodes rest with
      | Except.error e => Except.error e
      | Except.ok (is, ps, ss, os) =>
        if t = "interface" then Except.ok (n.id :: is, ps, ss, os)
        else if t = "processer" then Except.ok (is, n.id :: ps, ss, os)
        else if t = "storage" then Except.ok (is, ps, n.id :: ss, os)
        else Except.ok (is, ps, ss, n.id :: os)

/-- Vertical spacing for the interface/processer/storage buckets:
`min(150, 600 / max(1, n - 1)) if n > 1 else 150`. -/
def vSpacing (n : Nat) : ℚ :=
  if n > 1 then min 150 (600 / ((n : ℚ) - 1)) else 150

/-- `start_y = -(n - 1) * spacing / 2`. -/
def vStartY (n : Nat) : ℚ :=
  -(((n : ℚ) - 1) * vSpacing n / 2)

/-- Horizontal spacing for the `other` bucket:
`min(120, 400 / max(1, n - 1)) if n > 1 else 120`. -/
def hSpacing (n : Nat) : ℚ :=
  if n > 1 then min 120 (400 / ((n : ℚ) - 1)) else 120

/-- `start_x = -(n - 1) * spacing / 2` for the `other` bucket. -/
def hStartX (n : Nat) : ℚ :=
  -(((n : ℚ) - 1) * hSpacing n / 2)

/-- Place one vertical bucket: node `i` at `(xBase, startY + i*spacing)`
(the `enumerate` loops at lines 877-903). -/
def placeVert (ids : List String) (xBase : ℚ) : List (String × ℚ × ℚ) :=
  ids.enum.map (fun p =>
    (p.2, xBase, vStartY ids.length + (p.1 : ℚ) * vSpacing ids.length))

/-- Place the `other` bucket along `y = -200` (lines 905-913). -/
def placeHoriz (ids : List String) : List (String × ℚ × ℚ) :=
  ids.enum.map (fun p =>
    (p.2, hStartX ids.length + (p.1 : ℚ) * hSpacing ids.length, -200))

/-- The `preset_positions` dict of `get_grouped_layout_config`, in
insertion order (interface, processer, storage, other). -/
def getGroupedLayoutPositions (g : Graph) :
    Except String (List (String × ℚ × ℚ)) :=
  match classifyNodes g.nodes with
  | Except.error e => Except.error e
  | Except.ok (is, ps, ss, os) =>
    Except.ok (placeVert is (-300) ++ placeVert ps 0 ++ placeVert ss 300
                ++ placeHoriz os)

/-! Spec-side formulas (§4.5 of the specification), stated in the
spec's own words to be compared with the code-side placement. -/

/-- Modelled from the spec: `spacing = n>1 ? min(150, 600/(n-1)) : 150`. -/
def specVSpacing (n : Nat) : ℚ :=
  if n > 1 then min 150 (600 / ((n : ℚ) - 1)) else 150

/-- Modelled from the spec: node `i` of a vertical bucket of size `n`
sits at `y = startY + i*spacing` with `startY = -(n-1)*spacing/2`. -/
def specVertY (n i : Nat) : ℚ :=
  -(((n : ℚ) - 1) * specVSpacing n / 2) + (i : ℚ) * specVSpacing n

/-- Modelled from the spec: the `other` bucket uses
`spacing = n>1 ? min(120, 400/(n-1)) : 120` along the horizontal axis. -/
def specHSpacing (n : Nat) : ℚ :=
  if n > 1 then min 120 (400 / ((n : ℚ) - 1)) else 120

/-- Modelled from the spec: node `i` of the `other` bucket sits at
`x = startX + i*spacing` with `startX = -(n-1)*spacing/2`. -/
def specHorizX (n i : Nat) : ℚ :=
  -(((n : ℚ) - 1) * specHSpacing n / 2) + (i : ℚ) * specHSpacing n

/-! # Theorems -/

/-- C1: in the projection with an active directed pair `(S, T)`, an edge
element is marked directed (`classes = 'directed'`, `data.directed =
true`) iff its `(source, target)` string pair equals `(S, T)` exactly and
order-sensitively; every other edge element — the reversed pair
included — is marked undirected. -/
theorem directed_projection_marks_exact (g : Graph) (S T : String)
    (e : EdgeElement)
    (he : CyElement.edgeEl e ∈ get_directed_cytoscape_elements g S T) :
    (e.directed = true ↔ (e.source = S ∧ e.target = T)) ∧
    (e.classes = "directed" ↔ (e.source = S ∧ e.target = T)) ∧
    (¬(e.source = S ∧ e.target = T) →
      e.directed = false ∧ e.classes = "undirected") := by
  rcases List.mem_append.mp he with h | h
  · rcases List.mem_map.mp h with ⟨n, _, hn⟩
    cases hn
  · rcases List.mem_map.mp h with ⟨e', he', heq⟩
    cases heq
    rcases List.mem_map.mp he' with ⟨ed, _, hfe⟩
    by_cases hc : ed.source = S ∧ ed.target = T
    · subst hfe
      simp [hc]
    · subst hfe
      have hb : (ed.source == S && ed.target == T) = false := by
        rcases not_and_or.mp hc with hx | hx <;> simp [hx]
      simp [hb]
      intro h1 h2
      exact hc ⟨h1, h2⟩

/-- Witness for C1 at the two-edge graph `{(A,B), (B,A)}` with the
active pair `(A, B)`: the `(A,B)` element is marked directed. -/
theorem directed_projection_marks_exact_witness :
    ((EdgeElement.mk "A" "B" "A->B" true "directed" []).directed = true ↔
      ((EdgeElement.mk "A" "B" "A->B" true "directed" []).source = "A" ∧
       (EdgeElement.mk "A" "B" "A->B" true "directed" []).target = "B")) ∧
    ((EdgeElement.mk "A" "B" "A->B" true "directed" []).classes = "directed" ↔
      ((EdgeElement.mk "A" "B" "A->B" true "directed" []).source = "A" ∧
       (EdgeElement.mk "A" "B" "A->B" true "directed" []).target = "B")) ∧
    (¬((EdgeElement.mk "A" "B" "A->B" true "directed" []).source = "A" ∧
       (EdgeElement.mk "A" "B" "A->B" true "directed" []).target = "B") →
      (EdgeElement.mk "A" "B" "A->B" true "directed" []).directed = false ∧
      (EdgeElement.mk "A" "B" "A->B" true "directed" []).classes = "undirected") :=
  directed_projection_marks_exact
    (Graph.mk [] [GraphEdge.mk "A" "B" [], GraphEdge.mk "B" "A" []]) "A" "B"
    (EdgeElement.mk "A" "B" "A->B" true "directed" []) (by decide)

/-- C10: when fewer than two join columns resolve for a selected row, or
either resolved value string-coerces to `''`, the connection extraction
yields no pair and the table-row-driven projection equals the plain
(no active pair) projection, in which every edge element is undirected. -/
theorem table_row_projection_fallback (g : Graph) (cfg : List String)
    (row : Row)
    (h : ∀ c0 c1 rest, resolvedConnCols cfg row = c0 :: c1 :: rest →
         pyStr (dictGet row c0 (.str "")) = "" ∨
         pyStr (dictGet row c1 (.str "")) = "") :
    extract_connection_info cfg row = Option.none ∧
    get_directed_cytoscape_elements_by_table_row g cfg row =
      get_cytoscape_elements g ∧
    (∀ e : EdgeElement, CyElement.edgeEl e ∈ get_cytoscape_elements g →
      e.directed = false ∧ e.classes = "undirected") := by
  have hext : extract_connection_info cfg row = Option.none := by
    unfold extract_connection_info
    cases hc : resolvedConnCols cfg row with
    | nil => rfl
    | cons c0 tail =>
      cases tail with
      | nil => rfl
      | cons c1 rest =>
        rcases h c0 c1 rest hc with hx | hx <;> simp [hx]
  refine ⟨hext, ?_, ?_⟩
  · unfold get_directed_cytoscape_elements_by_table_row
    by_cases hr : row = [] <;> simp [hr, hext]
  · intro e hmem
    rcases List.mem_append.mp hmem with hn | hedge
    · rcases List.mem_map.mp hn with ⟨n, _, hn2⟩
      cases hn2
    · rcases List.mem_map.mp hedge with ⟨ed, _, hfe⟩
      cases hfe
      exact ⟨rfl, rfl⟩

/-- Witness for C10: a row carrying only a `source` column resolves a
single join column, so the projection stays fully undirected. -/
theorem table_row_projection_fallback_witness :
    extract_connection_info [] [("source", PyValue.str "A")] = Option.none ∧
    get_directed_cytoscape_elements_by_table_row
      (Graph.mk [] [GraphEdge.mk "A" "B" []]) [] [("source", PyValue.str "A")] =
      get_cytoscape_elements (Graph.mk [] [GraphEdge.mk "A" "B" []]) ∧
    (∀ e : EdgeElement,
      CyElement.edgeEl e ∈ get_cytoscape_elements
        (Graph.mk [] [GraphEdge.mk "A" "B" []]) →
      e.directed = false ∧ e.classes = "undirected") :=
  table_row_projection_fallback
    (Graph.mk [] [GraphEdge.mk "A" "B" []]) [] [("source", PyValue.str "A")]
    (by intro c0 c1 rest hcontra; simp [resolvedConnCols, hasKey, dictFind] at hcontra)

/-- If no candidate is present with a truthy value, the resolution loop
falls through. -/
lemma resolveFirst_eq_none (d : Dict) (cands : List String)
    (h : ∀ c ∈ cands, presentTruthy d c = false) :
    resolveFirst d cands = Option.none := by
  induction cands with
  | nil => rfl
  | cons c rest ih =>
    have hc := h c (List.mem_cons_self c rest)
    have hrest : ∀ c' ∈ rest, presentTruthy d c' = false :=
      fun c' hc' => h c' (List.mem_cons_of_mem c hc')
    unfold resolveFirst
    unfold presentTruthy at hc
    cases hf : dictFind d c with
    | none => simpa [hf] using ih hrest
    | some v =>
      simp only [hf] at hc
      simp only [hf, hc, Bool.false_eq_true, if_false]
      exact ih hrest

/-- The resolution loop returns the value of the first candidate that is
present with a truthy value. -/
lemma resolveFirst_eq_first (d : Dict) (pre : List String) (c : String)
    (post : List String) (v : PyValue)
    (hpre : ∀ c' ∈ pre, presentTruthy d c' = false)
    (hc : dictFind d c = some v) (hv : pyTruthy v = true) :
    resolveFirst d (pre ++ c :: post) = some v := by
  induction pre with
  | nil => simp [resolveFirst, hc, hv]
  | cons p rest ih =>
    have hp := hpre p (List.mem_cons_self p rest)
    have hrest : ∀ c' ∈ rest, presentTruthy d c' = false :=
      fun c' hc' => hpre c' (List.mem_cons_of_mem p hc')
    unfold presentTruthy at hp
    rw [List.cons_append]
    unfold resolveFirst
    cases hf : dictFind d p with
    | none => simpa using ih hrest
    | some w =>
      simp only [hf] at hp
      simp only [hp, Bool.false_eq_true, if_false]
      exact ih hrest

/-- C8: attribute resolution walks its candidate list in order,
returning the string coercion of the first candidate present with a
truthy value (present-but-falsy candidates are skipped); with no match,
label resolution falls back to the id (or `source->target` for edges)
and category resolution to `'default'`. -/
theorem attribute_resolution_spec (d : Dict) (node_id src tgt : String) :
    ((∀ c ∈ ["label", "name", "title", "id"], presentTruthy d c = false) →
      get_node_label d node_id = node_id) ∧
    ((∀ c ∈ ["type", "category", "kind", "class"], presentTruthy d c = false) →
      get_node_type d = "default") ∧
    ((∀ c ∈ ["label", "name", "title", "relation"], presentTruthy d c = false) →
      get_edge_label d src tgt = src ++ "->" ++ tgt) ∧
    (∀ pre c post v, pre ++ c :: post = ["label", "name", "title", "id"] →
      (∀ c' ∈ pre, presentTruthy d c' = false) →
      dictFind d c = some v → pyTruthy v = true →
      get_node_label d node_id = pyStr v) ∧
    (∀ pre c post v, pre ++ c :: post = ["type", "category", "kind", "class"] →
      (∀ c' ∈ pre, presentTruthy d c' = false) →
      dictFind d c = some v → pyTruthy v = true →
      get_node_type d = pyStr v) ∧
    (∀ pre c post v, pre ++ c :: post = ["label", "name", "title", "relation"] →
      (∀ c' ∈ pre, presentTruthy d c' = false) →
      dictFind d c = some v → pyTruthy v = true →
      get_edge_label d src tgt = pyStr v) := by
  refine ⟨?_, ?_, ?_, ?_, ?_, ?_⟩
  · intro h
    unfold get_node_label
    rw [resolveFirst_eq_none d _ h]
  · intro h
    unfold get_node_type
    rw [resolveFirst_eq_none d _ h]
  · intro h
    unfold get_edge_label
    rw [resolveFirst_eq_none d _ h]
  · intro pre c post v hdecomp hpre hc hv
    unfold get_node_label
    rw [← hdecomp, resolveFirst_eq_first d pre c post v hpre hc hv]
  · intro pre c post v hdecomp hpre hc hv
    unfold get_node_type
    rw [← hdecomp, resolveFirst_eq_first d pre c post v hpre hc hv]
  · intro pre c post v hdecomp hpre hc hv
    unfold get_edge_label
    rw [← hdecomp, resolveFirst_eq_first d pre c post v hpre hc hv]

/-- Witness for C8: `{'label': '', 'name': 'N'}` skips the falsy label
and resolves to `name`; an empty dict falls back to the id and to
`'default'`. -/
theorem attribute_resolution_spec_witness :
    get_node_label [("label", PyValue.str ""), ("name", PyValue.str "N")] "X" = "N" ∧
    get_node_label [] "X" = "X" ∧
    get_node_type [] = "default" ∧
    get_edge_label [] "A" "B" = "A" ++ "->" ++ "B" := by
  have h := attribute_resolution_spec
    [("label", PyValue.str ""), ("name", PyValue.str "N")] "X" "A" "B"
  have h2 := attribute_resolution_spec [] "X" "A" "B"
  refine ⟨?_, ?_, ?_, ?_⟩
  · exact h.2.2.2.1 ["label"] "name" ["title", "id"] (PyValue.str "N")
      (by decide) (by decide) (by decide) (by decide)
  · exact h2.1 (by decide)
  · exact h2.2.1 (by decide)
  · exact h2.2.2.1 (by decide)

/-- C7: with a non-empty row list, if no row's resolved join column
string-equals the node id the filter returns the original rows unchanged
(same length and order); otherwise it returns exactly the matching rows,
in original order, each at most once. -/
theorem filter_table_fail_open (cfg : List String) (node_id : String)
    (rows : List Row) (hne : rows ≠ []) :
    ((∀ r ∈ rows,
        rowMatchesNode (resolved_filter_columns cfg rows) node_id r = false) →
      filter_table_by_node cfg node_id rows = rows) ∧
    ((∃ r ∈ rows,
        rowMatchesNode (resolved_filter_columns cfg rows) node_id r = true) →
      filter_table_by_node cfg node_id rows =
        rows.filter (rowMatchesNode (resolved_filter_columns cfg rows) node_id)) := by
  cases rows with
  | nil => exact absurd rfl hne
  | cons r0 rest =>
    by_cases hcols : resolved_filter_columns cfg (r0 :: rest) = []
    · constructor
      · intro _
        simp [filter_table_by_node, hcols]
      · intro hex
        rcases hex with ⟨r, _, hr⟩
        rw [hcols] at hr
        simp [rowMatchesNode] at hr
    · constructor
      · intro hall
        have hfil : (r0 :: rest).filter
            (rowMatchesNode (resolved_filter_columns cfg (r0 :: rest)) node_id) = [] :=
          List.filter_eq_nil_iff.mpr (by
            intro a ha
            simp [hall a ha])
        simp [filter_table_by_node, hcols, hfil]
      · intro hex
        rcases hex with ⟨r, hrmem, hr⟩
        have hfil : (r0 :: rest).filter
            (rowMatchesNode (resolved_filter_columns cfg (r0 :: rest)) node_id) ≠ [] := by
          intro hnil
          have := List.filter_eq_nil_iff.mp hnil r hrmem
          simp [hr] at this
        simp [filter_table_by_node, hcols, hfil]

/-- Witness for C7: a filter miss on `X` over rows `{source: A}, {source: B}`
returns the rows unchanged; a hit on `A` keeps exactly the matching row. -/
theorem filter_table_fail_open_witness :
    filter_table_by_node [] "X"
      [[("source", PyValue.str "A")], [("source", PyValue.str "B")]] =
      [[("source", PyValue.str "A")], [("source", PyValue.str "B")]] ∧
    filter_table_by_node [] "A"
      [[("source", PyValue.str "A")], [("source", PyValue.str "B")]] =
      [[("source", PyValue.str "A")]] := by
  constructor
  · exact (filter_table_fail_open [] "X"
      [[("source", PyValue.str "A")], [("source", PyValue.str "B")]]
      (by decide)).1 (by decide)
  · have h := (filter_table_fail_open [] "A"
      [[("source", PyValue.str "A")], [("source", PyValue.str "B")]]
      (by decide)).2 (by decide)
    rw [h]
    decide

/-! ## Merge lemmas -/

/-- A rule kept by the merge loop comes from the additional list, has a
non-empty selector and one not already accumulated. -/
lemma mergeExtra_mem {r : StyleRule} :
    ∀ (bs : List StyleRule) (existing : List String),
      r ∈ mergeExtra existing bs →
      r ∈ bs ∧ r.selector ≠ "" ∧ r.selector ∉ existing := by
  intro bs
  induction bs with
  | nil =>
    intro existing h
    simp [mergeExtra] at h
  | cons s rest ih =>
    intro existing h
    unfold mergeExtra at h
    by_cases hc : s.selector ≠ "" ∧ s.selector ∉ existing
    · rw [if_pos hc] at h
      rcases List.mem_cons.mp h with rfl | h2
      · exact ⟨List.mem_cons_self _ _, hc.1, hc.2⟩
      · obtain ⟨h3, h4, h5⟩ := ih _ h2
        exact ⟨List.mem_cons_of_mem _ h3, h4,
               fun hx => h5 (List.mem_append_left _ hx)⟩
    · rw [if_neg hc] at h
      obtain ⟨h3, h4, h5⟩ := ih _ h
      exact ⟨List.mem_cons_of_mem _ h3, h4, h5⟩

/-- No selector produced by the merge loop was already accumulated. -/
lemma mergeExtra_sel_disjoint (bs : List StyleRule) (existing : List String)
    (s : String) (h : s ∈ (mergeExtra existing bs).map StyleRule.selector) :
    s ∉ existing := by
  rcases List.mem_map.mp h with ⟨r, hr, rfl⟩
  exact (mergeExtra_mem bs existing hr).2.2

/-- The merge loop never emits the same selector twice. -/
lemma mergeExtra_sel_nodup :
    ∀ (bs : List StyleRule) (existing : List String),
      ((mergeExtra existing bs).map StyleRule.selector).Nodup := by
  intro bs
  induction bs with
  | nil =>
    intro existing
    simp [mergeExtra]
  | cons s rest ih =>
    intro existing
    unfold mergeExtra
    by_cases hc : s.selector ≠ "" ∧ s.selector ∉ existing
    · rw [if_pos hc]
      simp only [List.map_cons]
      refine List.nodup_cons.mpr ⟨?_, ih _⟩
      intro hx
      exact mergeExtra_sel_disjoint rest (existing ++ [s.selector]) s.selector hx
        (List.mem_append_right _ (List.mem_singleton.mpr rfl))
    · rw [if_neg hc]
      exact ih _

/-- For a non-empty base the merge is the base followed by the loop's
extras. -/
lemma merge_stylesheets_eq (A B : List StyleRule) (hA : A ≠ []) :
    merge_stylesheets A B = A ++ mergeExtra (A.map StyleRule.selector) B := by
  simp [merge_stylesheets, hA]

/-- C3 (amended): for a NON-EMPTY base list `A`, merging `B` onto `A`
keeps every rule of `A` in order as an initial segment and appends only
rules of `B` with a non-empty selector not already among the accumulated
selectors; a selector present in `A` keeps exactly `A`'s rules; appended
selectors are pairwise distinct.  (With an empty `A` the code returns
`B` verbatim, without deduplication — see the counterexample.) -/
theorem merge_stylesheets_spec (A B : List StyleRule) (hA : A ≠ []) :
    (merge_stylesheets A B).take A.length = A ∧
    (∀ r ∈ merge_stylesheets A B, r ∈ A ∨
      (r ∈ B ∧ r.selector ≠ "" ∧ r.selector ∉ A.map StyleRule.selector)) ∧
    (∀ s, s ∈ A.map StyleRule.selector →
      (merge_stylesheets A B).filter (fun r => r.selector == s) =
        A.filter (fun r => r.selector == s)) ∧
    (((merge_stylesheets A B).drop A.length).map StyleRule.selector).Nodup := by
  rw [merge_stylesheets_eq A B hA]
  refine ⟨List.take_left A _, ?_, ?_, ?_⟩
  · intro r hr
    rcases List.mem_append.mp hr with h | h
    · exact Or.inl h
    · exact Or.inr (mergeExtra_mem B _ h)
  · intro s hs
    rw [List.filter_append]
    have hnil : (mergeExtra (A.map StyleRule.selector) B).filter
        (fun r => r.selector == s) = [] := by
      refine List.filter_eq_nil_iff.mpr ?_
      intro r hr hbeq
      have h2 := (mergeExtra_mem B _ hr).2.2
      have : r.selector = s := by simpa using hbeq
      exact h2 (this ▸ hs)
    rw [hnil, List.append_nil]
  · rw [List.drop_left A _]
    exact mergeExtra_sel_nodup B _

/-- Counterexample for C3 as stated: with an empty base list the merge
returns the additional styles verbatim, keeping two rules with the same
selector instead of deduplicating. -/
theorem merge_stylesheets_claim_cex :
    merge_stylesheets [] [StyleRule.mk "s" [], StyleRule.mk "s" []] =
      [StyleRule.mk "s" [], StyleRule.mk "s" []] ∧
    ¬ ((merge_stylesheets [] [StyleRule.mk "s" [], StyleRule.mk "s" []]).map
        StyleRule.selector).Nodup := by
  decide

/-- Witness for C3's amended theorem at a shared selector `a`. -/
theorem merge_stylesheets_spec_witness :
    (merge_stylesheets [StyleRule.mk "a" []]
        [StyleRule.mk "a" [("k", PyValue.int 1)], StyleRule.mk "b" []]).filter
      (fun r => r.selector == "a") =
      [StyleRule.mk "a" []].filter (fun r => r.selector == "a") := by
  exact (merge_stylesheets_spec [StyleRule.mk "a" []]
    [StyleRule.mk "a" [("k", PyValue.int 1)], StyleRule.mk "b" []]
    (by decide)).2.2.1 "a" (by decide)

/-! ## Selector distinctness helpers -/

lemma string_data_append (a b : String) : (a ++ b).data = a.data ++ b.data := rfl

lemma string_eq_of_data {a b : String} (h : a.data = b.data) : a = b := by
  cases a with
  | mk da =>
    cases b with
    | mk db => exact congrArg String.mk h

lemma nodeIdSelector_inj {s t : String} (h : nodeIdSelector s = nodeIdSelector t) :
    s = t := by
  have hd := congrArg String.data h
  simp only [nodeIdSelector, string_data_append] at hd
  exact string_eq_of_data
    (List.append_cancel_left (List.append_cancel_right hd))

lemma nodeTypeSelector_inj {s t : String}
    (h : nodeTypeSelector s = nodeTypeSelector t) : s = t := by
  have hd := congrArg String.data h
  simp only [nodeTypeSelector, string_data_append] at hd
  exact string_eq_of_data
    (List.append_cancel_left (List.append_cancel_right hd))

lemma nodeIdSelector_ne_edgeHighlightSelector (u s t : String) :
    nodeIdSelector u ≠ edgeHighlightSelector s t := by
  intro h
  have hd := congrArg String.data h
  have h1 : ("node[id = \"" : String).data =
      'n' :: ("ode[id = \"" : String).data := rfl
  have h2 : ("edge[source = \"" : String).data =
      'e' :: ("dge[source = \"" : String).data := rfl
  simp only [nodeIdSelector, edgeHighlightSelector, string_data_append,
    h1, h2, List.cons_append] at hd
  exact absurd (List.head_eq_of_cons_eq hd) (by decide)

lemma nodeTypeSelector_length (t : String) :
    (nodeTypeSelector t).length = 13 + t.length + 2 := by
  have h1 : ("node[Type = \"" : String).length = 13 := by decide
  have h2 : ("\"]" : String).length = 2 := by decide
  simp [nodeTypeSelector, String.length_append, h1, h2]

lemma nodeTypeSelector_ne_node (t : String) : nodeTypeSelector t ≠ "node" := by
  intro h
  have hlen := congrArg String.length h
  rw [nodeTypeSelector_length] at hlen
  have h4 : ("node" : String).length = 4 := by decide
  rw [h4] at hlen
  omega

lemma nodeTypeSelector_ne_edge (t : String) : nodeTypeSelector t ≠ "edge" := by
  intro h
  have hlen := congrArg String.length h
  rw [nodeTypeSelector_length] at hlen
  have h4 : ("edge" : String).length = 4 := by decide
  rw [h4] at hlen
  omega

/-- The per-type rules of the generated base stylesheet have pairwise
distinct selectors, each of the `node[Type = "..."]` shape. -/
lemma type_rules_sel_nodup (styles : List (String × Dict)) :
    ∀ (ts : List String), ts.Nodup →
      ((ts.filterMap (fun t =>
          (styles.find? (fun p => p.1 == t)).map
            (fun p => node_type_rule t p.2))).map StyleRule.selector).Nodup ∧
      (∀ x ∈ (ts.filterMap (fun t =>
          (styles.find? (fun p => p.1 == t)).map
            (fun p => node_type_rule t p.2))).map StyleRule.selector,
        ∃ t ∈ ts, x = nodeTypeSelector t) := by
  intro ts
  induction ts with
  | nil =>
    intro _
    simp
  | cons t rest ih =>
    intro hnd
    obtain ⟨hnotin, hndrest⟩ := List.nodup_cons.mp hnd
    obtain ⟨ihn, ihm⟩ := ih hndrest
    cases hf : styles.find? (fun p => p.1 == t) with
    | none =>
      rw [List.filterMap_cons]
      simp only [hf, Option.map_none']
      refine ⟨ihn, ?_⟩
      intro x hx
      obtain ⟨t', ht', hx'⟩ := ihm x hx
      exact ⟨t', List.mem_cons_of_mem _ ht', hx'⟩
    | some p =>
      rw [List.filterMap_cons]
      simp only [hf, Option.map_some', List.map_cons]
      constructor
      · refine List.nodup_cons.mpr ⟨?_, ihn⟩
        intro hx
        obtain ⟨t', ht', hx'⟩ := ihm _ hx
        have : t = t' := nodeTypeSelector_inj (by simpa [node_type_rule] using hx')
        exact hnotin (this ▸ ht')
      · intro x hx
        rcases List.mem_cons.mp hx with rfl | hx2
        · exact ⟨t, List.mem_cons_self _ _, rfl⟩
        · obtain ⟨t', ht', hx'⟩ := ihm x hx2
          exact ⟨t', List.mem_cons_of_mem _ ht', hx'⟩

/-- `get_node_types` deduplicates (it is a sorted set). -/
lemma get_node_types_nodup (g : Graph) : (get_node_types g).Nodup :=
  (List.perm_insertionSort _ _).nodup_iff.mpr
    (List.nodup_dedup _)

/-- C4 (amended): the composer's outputs have at most one rule per
selector under the conditions the code actually guarantees: the merge
preserves selector-uniqueness of a non-empty base; highlights preserve
it when the appended selectors are fresh and, for an edge highlight,
source ≠ target; the directed overlay preserves it when its two class
selectors are fresh; and the dynamically generated base stylesheet is
always duplicate-free.  (`add_edge_highlight` with source = target
duplicates a selector — see the counterexample.) -/
theorem stylesheet_unique_selectors :
    (∀ A B : List StyleRule, A ≠ [] → ((A.map StyleRule.selector).Nodup) →
      ((merge_stylesheets A B).map StyleRule.selector).Nodup) ∧
    (∀ (base : List StyleRule) (node_id color : String) (w : Int),
      (base.map StyleRule.selector).Nodup →
      nodeIdSelector node_id ∉ base.map StyleRule.selector →
      ((add_node_highlight base node_id color w).map StyleRule.selector).Nodup) ∧
    (∀ (base : List StyleRule) (s t color : String),
      (base.map StyleRule.selector).Nodup → s ≠ t →
      nodeIdSelector s ∉ base.map StyleRule.selector →
      nodeIdSelector t ∉ base.map StyleRule.selector →
      edgeHighlightSelector s t ∉ base.map StyleRule.selector →
      ((add_edge_highlight base s t color).map StyleRule.selector).Nodup) ∧
    (∀ base : List StyleRule,
      (base.map StyleRule.selector).Nodup →
      "edge.undirected" ∉ base.map StyleRule.selector →
      "edge.directed" ∉ base.map StyleRule.selector →
      ((get_directed_stylesheet base).map StyleRule.selector).Nodup) ∧
    (∀ (cfg : StyleConfig) (g : Graph),
      ((get_cytoscape_stylesheet_csv cfg g).map StyleRule.selector).Nodup) := by
  refine ⟨?_, ?_, ?_, ?_, ?_⟩
  · intro A B hA hnd
    rw [merge_stylesheets_eq A B hA, List.map_append]
    refine hnd.append (mergeExtra_sel_nodup B _) ?_
    intro a haA haE
    exact mergeExtra_sel_disjoint B _ a haE haA
  · intro base node_id color w hnd hfresh
    rw [add_node_highlight, List.map_append]
    refine hnd.append (by simp) ?_
    intro a haB haH
    simp only [List.map_cons, List.map_nil, List.mem_singleton] at haH
    exact hfresh (haH ▸ haB)
  · intro base s t color hnd hst hfs hft hfe
    rw [add_edge_highlight, List.map_append]
    refine hnd.append ?_ ?_
    · simp only [List.map_cons, List.map_nil]
      refine List.nodup_cons.mpr ⟨?_, List.nodup_cons.mpr ⟨?_, by simp⟩⟩
      · intro hmem
        rcases List.mem_cons.mp hmem with h | h
        · exact hst (nodeIdSelector_inj h)
        · rcases List.mem_singleton.mp h with h2
          exact nodeIdSelector_ne_edgeHighlightSelector s s t h2
      · intro hmem
        rcases List.mem_singleton.mp hmem with h2
        exact nodeIdSelector_ne_edgeHighlightSelector t s t h2
    · intro a haB haH
      simp only [List.map_cons, List.map_nil, List.mem_cons,
        List.not_mem_nil, or_false] at haH
      rcases haH with rfl | rfl | rfl
      · exact hfs haB
      · exact hft haB
      · exact hfe haB
  · intro base hnd h1 h2
    rw [get_directed_stylesheet, List.map_append]
    refine hnd.append (by decide) ?_
    intro a haB haH
    simp only [List.map_cons, List.map_nil, List.mem_cons,
      List.not_mem_nil, or_false] at haH
    rcases haH with rfl | rfl
    · exact h1 haB
    · exact h2 haB
  · intro cfg g
    obtain ⟨hnd, hshape⟩ :=
      type_rules_sel_nodup cfg.node_type_styles (get_node_types g)
        (get_node_types_nodup g)
    rw [get_cytoscape_stylesheet_csv]
    simp only [List.map_cons, List.map_append, List.map_cons, List.map_nil]
    refine List.nodup_cons.mpr ⟨?_, ?_⟩
    · intro hmem
      rcases List.mem_append.mp hmem with h | h
      · obtain ⟨t, _, ht⟩ := hshape _ h
        exact nodeTypeSelector_ne_node t ht.symm
      · simp [default_edge_rule, default_node_rule] at h
    · refine hnd.append (by simp) ?_
      intro a haT haE
      simp only [default_edge_rule, List.mem_singleton] at haE
      obtain ⟨t, _, ht⟩ := hshape a haT
      subst haE
      exact nodeTypeSelector_ne_edge t ht.symm

/-- Counterexample for C4 as stated: an edge highlight for a self-loop
row (source = target = "A") — returned directly as the composed
stylesheet by `_handle_table_style_selection` — emits the selector
`node[id = "A"]` twice. -/
theorem edge_highlight_selfloop_cex :
    ¬ (((add_edge_highlight [] "A" "A" "orange").map StyleRule.selector).Nodup) := by
  decide

/-- Witness for C4's amended theorem: merging the directed overlay with
an edge highlight over the same base yields duplicate-free selectors. -/
theorem stylesheet_unique_selectors_witness :
    ((merge_stylesheets [StyleRule.mk "node" []]
        [StyleRule.mk "node" [], StyleRule.mk "edge" []]).map
      StyleRule.selector).Nodup := by
  exact stylesheet_unique_selectors.1 [StyleRule.mk "node" []]
    [StyleRule.mk "node" [], StyleRule.mk "edge" []] (by decide) (by decide)

/-- C2 (amended): a node tap toggles the selection — tapping the
currently selected node clears to `none` together with the app's resting
stylesheet (the plain base stylesheet in `dash_graphml_csv.update_styles`,
base + directed overlay in `_handle_node_selection`); any other tap
selects the node.  In `_handle_node_selection` this holds for every
NON-EMPTY id: a falsy (empty) tapped id always clears to `none`.  The
toggle law `tap v; tap v` from `none` holds in both implementations. -/
theorem nodeTap_toggle_spec (base : List StyleRule) (cfg : List String)
    (sr : List Nat) (td : List Row) (v : String) (last : Selection) :
    (last = Selection.node v →
      update_styles base cfg (some v) sr last td =
        Except.ok (get_base_stylesheet base, Selection.none)) ∧
    (last ≠ Selection.node v →
      update_styles base cfg (some v) sr last td =
        Except.ok (add_node_highlight base v "red" 4, Selection.node v)) ∧
    (update_styles base cfg (some v) sr Selection.none td =
        Except.ok (add_node_highlight base v "red" 4, Selection.node v) ∧
     update_styles base cfg (some v) sr (Selection.node v) td =
        Except.ok (get_base_stylesheet base, Selection.none)) ∧
    (v ≠ "" → last = Selection.node v →
      handle_node_selection base v last =
        (get_directed_stylesheet base, Selection.none)) ∧
    (v ≠ "" → last ≠ Selection.node v →
      handle_node_selection base v last =
        (add_node_highlight base v "red" 4, Selection.node v)) ∧
    (handle_node_selection base "" last =
        (get_directed_stylesheet base, Selection.none)) ∧
    ((handle_node_selection base v
        (handle_node_selection base v Selection.none).2).2 = Selection.none) := by
  refine ⟨?_, ?_, ⟨?_, ?_⟩, ?_, ?_, ?_, ?_⟩
  · intro h
    simp [update_styles, h]
  · intro h
    simp [update_styles, h]
  · simp [update_styles]
  · simp [update_styles]
  · intro hv h
    simp [handle_node_selection, hv, h]
  · intro hv h
    simp [handle_node_selection, hv, h]
  · simp [handle_node_selection]
  · by_cases hv : v = ""
    · subst hv
      simp [handle_node_selection]
    · simp [handle_node_selection, hv]

/-- Counterexample for C2 as stated: in `_handle_node_selection` a tap
of the empty node id from the `none` state yields `none`, not
`node("")`; and clearing a selection returns the directed-overlay
stylesheet, not the bare base stylesheet. -/
theorem nodeTap_empty_id_cex :
    (handle_node_selection [] "" Selection.none).2 = Selection.none ∧
    Selection.none ≠ Selection.node "" ∧
    (handle_node_selection [] "A" (Selection.node "A")).1 ≠
      get_base_stylesheet [] := by
  decide

/-- Witness for C2's amended theorem: tapping `A` from `none` selects
it, tapping again clears it, in both implementations. -/
theorem nodeTap_toggle_spec_witness :
    update_styles [] [] (some "A") [] Selection.none [] =
      Except.ok (add_node_highlight [] "A" "red" 4, Selection.node "A") ∧
    update_styles [] [] (some "A") [] (Selection.node "A") [] =
      Except.ok (get_base_stylesheet [], Selection.none) ∧
    handle_node_selection [] "A" (Selection.node "A") =
      (get_directed_stylesheet [], Selection.none) := by
  have h := nodeTap_toggle_spec [] [] [] [] "A" (Selection.node "A")
  exact ⟨(nodeTap_toggle_spec [] [] [] [] "A" Selection.none).2.1 (by decide),
         h.1 rfl,
         h.2.2.2.1 (by decide) rfl⟩

/-- C5 (amended): the style-update step degrades to the `none` selection
and the base stylesheet when the selected-rows list or the table data is
empty; but a non-empty selected-rows list whose first index is OUTSIDE
the bounds of the table data raises an IndexError — the code does not
guard the lookup. -/
theorem update_styles_degrade_spec (base : List StyleRule)
    (cfg : List String) (sr : List Nat) (last : Selection) (td : List Row) :
    ((sr = [] ∨ td = []) →
      update_styles base cfg Option.none sr last td =
        Except.ok (get_base_stylesheet base, Selection.none)) ∧
    (∀ i rest, sr = i :: rest → td ≠ [] → td.length ≤ i →
      update_styles base cfg Option.none sr last td =
        Except.error "IndexError") := by
  constructor
  · intro hcase
    rcases hcase with h | h
    · subst h
      cases td <;> rfl
    · subst h
      cases sr <;> rfl
  · intro i rest hsr htd hlen
    subst hsr
    have hg : td.get? i = Option.none := List.get?_eq_none.mpr hlen
    cases td with
    | nil => exact absurd rfl htd
    | cons r rs =>
      simp only [update_styles]
      rw [hg]

/-- Counterexample for C5 as stated: the table data `[{source: A}]` with
selected row index 1 raises instead of degrading to the base
stylesheet. -/
theorem update_styles_oob_cex :
    update_styles [] [] Option.none [1] Selection.none
        [[("source", PyValue.str "A")]] = Except.error "IndexError" ∧
    update_styles [] [] Option.none [1] Selection.none
        [[("source", PyValue.str "A")]] ≠
      Except.ok (get_base_stylesheet [], Selection.none) :=
  ⟨rfl, fun h => Except.noConfusion h⟩

/-- Witness for C5's amended theorem: empty selection degrades; index 1
into a one-row table raises. -/
theorem update_styles_degrade_spec_witness :
    update_styles [] [] Option.none [] Selection.none
        [[("source", PyValue.str "A")]] =
      Except.ok (get_base_stylesheet [], Selection.none) ∧
    update_styles [] [] Option.none [1] Selection.none
        [[("source", PyValue.str "A")]] = Except.error "IndexError" := by
  have h := update_styles_degrade_spec [] [] [1] Selection.none
    [[("source", PyValue.str "A")]]
  exact ⟨(update_styles_degrade_spec [] [] [] Selection.none
           [[("source", PyValue.str "A")]]).1 (Or.inl rfl),
         h.2 1 [] rfl (by decide) (by decide)⟩

/-! ## Layout lemmas -/

/-- Indexing a vertical bucket placement. -/
lemma placeVert_getElem? (ids : List String) (x : ℚ) (i : Nat) :
    (placeVert ids x)[i]? = ids[i]?.map
      (fun id => (id, x, vStartY ids.length + (i : ℚ) * vSpacing ids.length)) := by
  simp only [placeVert, List.getElem?_map, List.getElem?_enum, Option.map_map]
  cases ids[i]? <;> rfl

/-- Indexing the `other` bucket placement. -/
lemma placeHoriz_getElem? (ids : List String) (i : Nat) :
    (placeHoriz ids)[i]? = ids[i]?.map
      (fun id => (id, hStartX ids.length + (i : ℚ) * hSpacing ids.length, -200)) := by
  simp only [placeHoriz, List.getElem?_map, List.getElem?_enum, Option.map_map]
  cases ids[i]? <;> rfl

/-- Mapping the first projection over an enum-built placement recovers
the original list. -/
lemma map_fst_enum_triple (l : List String) (f : Nat → ℚ × ℚ) :
    ((l.enum.map (fun p => (p.2, f p.1))).map Prod.fst) = l := by
  rw [List.map_map]
  have hc : (Prod.fst ∘ fun p : Nat × String => (p.2, f p.1)) = Prod.snd := rfl
  rw [hc, List.enum_map_snd]

/-- Placement keeps exactly the bucket's ids, in order. -/
lemma placeVert_map_fst (ids : List String) (x : ℚ) :
    (placeVert ids x).map Prod.fst = ids :=
  map_fst_enum_triple ids
    (fun i => (x, vStartY ids.length + (i : ℚ) * vSpacing ids.length))

lemma placeHoriz_map_fst (ids : List String) :
    (placeHoriz ids).map Prod.fst = ids :=
  map_fst_enum_triple ids
    (fun i => (hStartX ids.length + (i : ℚ) * hSpacing ids.length, -200))

/-- Inserting one element into the middle of a concatenation, up to
permutation with putting it in front. -/
lemma perm_bucket_cons (a : String) (l1 l2 target : List String)
    (h : List.Perm (l1 ++ l2) target) :
    List.Perm (l1 ++ a :: l2) (a :: target) :=
  List.perm_middle.trans (h.cons a)

/-- The classification pass hands every node id to exactly one bucket. -/
lemma classifyNodes_perm :
    ∀ (ns : List GraphNode) (is ps ss os : List String),
      classifyNodes ns = Except.ok (is, ps, ss, os) →
      List.Perm (is ++ ps ++ ss ++ os) (ns.map GraphNode.id) := by
  intro ns
  induction ns with
  | nil =>
    intro is ps ss os h
    simp only [classifyNodes, Except.ok.injEq, Prod.mk.injEq] at h
    obtain ⟨h1, h2, h3, h4⟩ := h
    subst h1; subst h2; subst h3; subst h4
    simp
  | cons n rest ih =>
    intro is ps ss os h
    unfold classifyNodes at h
    cases hpl : pyLower (layoutTypeVal n) with
    | error e =>
      simp only [hpl] at h
      exact absurd h (by simp)
    | ok t =>
      simp only [hpl] at h
      cases hrec : classifyNodes rest with
      | error e =>
        simp only [hrec] at h
        exact absurd h (by simp)
      | ok quad =>
        obtain ⟨is', ps', ss', os'⟩ := quad
        simp only [hrec] at h
        have hperm := ih is' ps' ss' os' hrec
        have hpermA : List.Perm (is' ++ (ps' ++ (ss' ++ os')))
            (rest.map GraphNode.id) := by
          simpa [List.append_assoc] using hperm
        by_cases h1 : t = "interface"
        · rw [if_pos h1] at h
          simp only [Except.ok.injEq, Prod.mk.injEq] at h
          obtain ⟨ha, hb, hc, hd⟩ := h
          subst ha; subst hb; subst hc; subst hd
          simpa using hperm.cons n.id
        · rw [if_neg h1] at h
          by_cases h2 : t = "processer"
          · rw [if_pos h2] at h
            simp only [Except.ok.injEq, Prod.mk.injEq] at h
            obtain ⟨ha, hb, hc, hd⟩ := h
            subst ha; subst hb; subst hc; subst hd
            simp only [List.map_cons, List.append_assoc, List.cons_append]
            exact perm_bucket_cons n.id is' (ps' ++ (ss' ++ os')) _ hpermA
          · rw [if_neg h2] at h
            by_cases h3 : t = "storage"
            · rw [if_pos h3] at h
              simp only [Except.ok.injEq, Prod.mk.injEq] at h
              obtain ⟨ha, hb, hc, hd⟩ := h
              subst ha; subst hb; subst hc; subst hd
              simp only [List.map_cons, List.append_assoc, List.cons_append]
              rw [← List.append_assoc]
              have hx : List.Perm ((is' ++ ps') ++ (ss' ++ os'))
                  (rest.map GraphNode.id) := by
                rw [List.append_assoc]
                exact hpermA
              exact perm_bucket_cons n.id (is' ++ ps') (ss' ++ os') _ hx
            · rw [if_neg h3] at h
              simp only [Except.ok.injEq, Prod.mk.injEq] at h
              obtain ⟨ha, hb, hc, hd⟩ := h
              subst ha; subst hb; subst hc; subst hd
              simp only [List.map_cons, List.append_assoc, List.cons_append]
              rw [← List.append_assoc, ← List.append_assoc]
              exact perm_bucket_cons n.id ((is' ++ ps') ++ ss') os' _ hperm

/-- C6: the grouped layout places each vertical bucket (interface at
x=-300, processer at x=0, storage at x=300) with
`spacing = n>1 ? min(150, 600/(n-1)) : 150`, `startY = -(n-1)*spacing/2`,
node `i` at `y = startY + i*spacing`; an interface bucket of size 3
lands at y ∈ {-150, 0, 150} with x=-300; the `other` bucket uses
`min(120, 400/(n-1))` at fixed y=-200. -/
theorem grouped_layout_positions_spec (g : Graph) (is ps ss os : List String)
    (h : classifyNodes g.nodes = Except.ok (is, ps, ss, os)) :
    getGroupedLayoutPositions g =
      Except.ok (placeVert is (-300) ++ placeVert ps 0 ++ placeVert ss 300
                  ++ placeHoriz os) ∧
    (∀ (ids : List String) (x : ℚ) (i : Nat),
      (placeVert ids x)[i]? =
        ids[i]?.map (fun id => (id, x, specVertY ids.length i))) ∧
    (∀ (ids : List String) (i : Nat),
      (placeHoriz ids)[i]? =
        ids[i]?.map (fun id => (id, specHorizX ids.length i, -200))) ∧
    (vSpacing 3 = 150 ∧ vStartY 3 = -150) ∧
    (∀ a b c : String, placeVert [a, b, c] (-300) =
      [(a, -300, -150), (b, -300, 0), (c, -300, 150)]) ∧
    (∀ n : Nat, hSpacing n = specHSpacing n) := by
  have hv3 : vSpacing 3 = 150 := by
    norm_num [vSpacing, min_def]
  have hs3 : vStartY 3 = -150 := by
    rw [vStartY, hv3]
    norm_num
  refine ⟨?_, ?_, ?_, ⟨hv3, hs3⟩, ?_, ?_⟩
  · rw [getGroupedLayoutPositions, h]
  · intro ids x i
    rw [placeVert_getElem?]
    have hy : vStartY ids.length + (i : ℚ) * vSpacing ids.length =
        specVertY ids.length i := by
      rw [specVertY, vStartY]
      rfl
    rw [hy]
  · intro ids i
    rw [placeHoriz_getElem?]
    have hy : hStartX ids.length + (i : ℚ) * hSpacing ids.length =
        specHorizX ids.length i := by
      rw [specHorizX, hStartX]
      rfl
    rw [hy]
  · intro a b c
    have hl : ([a, b, c] : List String).length = 3 := rfl
    simp only [placeVert, List.enum, List.enumFrom, List.map_cons, List.map_nil, hl,
      hv3, hs3]
    norm_num
  · intro n
    rfl

/-- Witness for C6 at a graph of three interface nodes. -/
theorem grouped_layout_positions_spec_witness :
    getGroupedLayoutPositions
      (Graph.mk
        [GraphNode.mk "a" [("type", PyValue.str "Interface")],
         GraphNode.mk "b" [("type", PyValue.str "Interface")],
         GraphNode.mk "c" [("type", PyValue.str "Interface")]] []) =
      Except.ok (placeVert ["a", "b", "c"] (-300) ++ placeVert [] 0
                  ++ placeVert [] 300 ++ placeHoriz []) ∧
    placeVert ["a", "b", "c"] (-300) =
      [("a", -300, -150), ("b", -300, 0), ("c", -300, 150)] := by
  have h := grouped_layout_positions_spec
    (Graph.mk
      [GraphNode.mk "a" [("type", PyValue.str "Interface")],
       GraphNode.mk "b" [("type", PyValue.str "Interface")],
       GraphNode.mk "c" [("type", PyValue.str "Interface")]] [])
    ["a", "b", "c"] [] [] [] (by rfl)
  exact ⟨h.1, h.2.2.2.2.1 "a" "b" "c"⟩

/-- C9: the four buckets partition the node set — every node id is
placed in exactly one bucket, the position list has one entry per bucket
member in order, and with distinct node ids the position map has exactly
one entry per (stringified) node id. -/
theorem grouped_layout_partition (g : Graph) (is ps ss os : List String)
    (h : classifyNodes g.nodes = Except.ok (is, ps, ss, os)) :
    List.Perm (is ++ ps ++ ss ++ os) (g.nodes.map GraphNode.id) ∧
    getGroupedLayoutPositions g =
      Except.ok (placeVert is (-300) ++ placeVert ps 0 ++ placeVert ss 300
                  ++ placeHoriz os) ∧
    ((placeVert is (-300) ++ placeVert ps 0 ++ placeVert ss 300
        ++ placeHoriz os).map Prod.fst) = is ++ ps ++ ss ++ os ∧
    ((g.nodes.map GraphNode.id).Nodup →
      ((placeVert is (-300) ++ placeVert ps 0 ++ placeVert ss 300
          ++ placeHoriz os).map Prod.fst).Nodup) := by
  have hperm := classifyNodes_perm g.nodes is ps ss os h
  have hmap : ((placeVert is (-300) ++ placeVert ps 0 ++ placeVert ss 300
      ++ placeHoriz os).map Prod.fst) = is ++ ps ++ ss ++ os := by
    simp only [List.map_append, placeVert_map_fst, placeHoriz_map_fst]
  refine ⟨hperm, ?_, hmap, ?_⟩
  · rw [getGroupedLayoutPositions, h]
  · intro hnd
    rw [hmap]
    exact hperm.nodup_iff.mpr (by simpa using hnd)

/-- Witness for C9 at a mixed two-node graph (one storage, one other). -/
theorem grouped_layout_partition_witness :
    List.Perm (([] : List String) ++ [] ++ ["s"] ++ ["o"]) ["s", "o"] ∧
    ((placeVert [] (-300) ++ placeVert [] 0 ++ placeVert ["s"] 300
        ++ placeHoriz ["o"]).map Prod.fst).Nodup := by
  have h := grouped_layout_partition
    (Graph.mk
      [GraphNode.mk "s" [("type", PyValue.str "Storage")],
       GraphNode.mk "o" [("category", PyValue.str "misc")]] [])
    [] [] ["s"] ["o"] (by rfl)
  exact ⟨h.1, h.2.2.2 (by decide)⟩

end DjangoConnSample

